import Mathlib

/-!
Verification development for the `nvtt_rs` binding layer.

The crate wraps the NVIDIA Texture Tools engine.  The substantive logic in
`src/lib.rs` is: (a) the enum bridging generated by the `decl_enum` macro
(`From<Enum> for Raw` and `TryFrom<Raw> for Enum`), (b) the output-streaming
bridge inside `Compressor::compress` (thread-local session state populated by
three C callbacks), (c) path conversion in `OutputOptions::set_output_location`,
and (d) the null-checked constructors.

We embed those parts shallowly.  The native engine itself is external code:
its behaviour during a `nvttCompress` call is modelled as an arbitrary list of
callback events followed by a success/failure status, and the raw numeric
values bindgen assigns to native enumerants are kept as parameters wherever a
claim does not depend on them.
-/

/-! ### The `decl_enum` bridge (src/lib.rs lines 113–183)

The macro generates, for a public enum with constructors `c₁ … cₙ` bridged to
native constants `v₁ … vₙ` (in declaration order):

* `From<Enum> for Raw`: a total match sending `cᵢ` to `vᵢ`;
* `TryFrom<Raw> for Enum`: a match over the constant patterns in declaration
  order — the first arm whose constant equals the scrutinee wins (the macro
  carries `#[allow(unreachable_patterns)]` precisely because native values may
  collide) — falling through to `Err(())`.

We model a bridged enum by its declaration-order list of
(constructor, native value) pairs. -/

/-- The `TryFrom<Raw>` implementation generated by `decl_enum`: scan the
declaration-order arms, first matching native value wins, else `Err(())`
(modelled as `none`). -/
def tryFromRaw {α : Type} (decls : List (α × Int)) (raw : Int) : Option α :=
  match decls with
  | [] => none
  | (a, v) :: rest => if v = raw then some a else tryFromRaw rest raw

/-- The reverse mapping described by the spec's words: the first-declared
public enumerant whose native value equals the raw input. -/
def specFirstDeclared {α : Type} (decls : List (α × Int)) (raw : Int) : Option α :=
  (decls.find? (fun p => decide (p.2 = raw))).map Prod.fst

/-! ### The bridged public enums (src/lib.rs)

Each inductive mirrors a `decl_enum!` invocation, constructors in declaration
order.  Bindgen assigns the native numeric values from the engine's C header,
which is generated at build time and not part of `src/`; every theorem that
touches them is therefore stated for an arbitrary assignment `c` of native
values to constructors, except where noted. -/

/-- `Container` (src/lib.rs lines 185–199). -/
inductive Container : Type
  | Dds | Dds10 | Ktx
deriving DecidableEq, Repr

/-- Declaration order of `Container`'s constructors. -/
def Container.all : List Container := [.Dds, .Dds10, .Ktx]

/-- `AlphaMode` (src/lib.rs lines 212–228). -/
inductive AlphaMode : Type
  | NoneAlpha | Premultiplied | Transparency
deriving DecidableEq, Repr

def AlphaMode.all : List AlphaMode := [.NoneAlpha, .Premultiplied, .Transparency]

/-- `Quality` (src/lib.rs lines 283–299). -/
inductive Quality : Type
  | Fastest | Highest | Normal | Production
deriving DecidableEq, Repr

def Quality.all : List Quality := [.Fastest, .Highest, .Normal, .Production]

/-- `Format` (src/lib.rs lines 308–343); the native `NvttFormat` enumeration
contains overlapping numeric values (e.g. the BC and DXT aliases). -/
inductive Format : Type
  | Bc1 | Bc1a | Bc2 | Bc3 | Bc3n | Bc3_Rgbm | Bc4 | Bc5 | Bc6 | Bc7
  | Ctx1 | Dxt1 | Dxt1a | Dxt1n | Dxt3 | Dxt5 | Dxt5n
  | Etc1 | Etc2_R | Etc2_Rg | Etc2_Rgb | Etc2_Rgba | Etc2_Rgbm | Etc2_Rgb_A1
  | Pvr_2Bpp_Rgb | Pvr_2Bpp_Rgba | Pvr_4Bpp_Rgb | Pvr_4Bpp_Rgba
  | Rgb | Rgba
deriving DecidableEq, Repr

def Format.all : List Format :=
  [.Bc1, .Bc1a, .Bc2, .Bc3, .Bc3n, .Bc3_Rgbm, .Bc4, .Bc5, .Bc6, .Bc7,
   .Ctx1, .Dxt1, .Dxt1a, .Dxt1n, .Dxt3, .Dxt5, .Dxt5n,
   .Etc1, .Etc2_R, .Etc2_Rg, .Etc2_Rgb, .Etc2_Rgba, .Etc2_Rgbm, .Etc2_Rgb_A1,
   .Pvr_2Bpp_Rgb, .Pvr_2Bpp_Rgba, .Pvr_4Bpp_Rgb, .Pvr_4Bpp_Rgba,
   .Rgb, .Rgba]

/-- `InputFormat` (src/lib.rs lines 345–358). -/
inductive InputFormat : Type
  | Bgra8Ub | Rgba16F | Rgba32F | R32F
deriving DecidableEq, Repr

def InputFormat.all : List InputFormat := [.Bgra8Ub, .Rgba16F, .Rgba32F, .R32F]

/-- `RoundMode` (src/lib.rs lines 360–379). -/
inductive RoundMode : Type
  | NoneRound | ToNearestMultipleOfFour | ToNearestPowerOfTwo
  | ToNextMultipleOfFour | ToNextPowerOfTwo
  | ToPreviousMultipleOfFour | ToPreviousPowerOfTwo
deriving DecidableEq, Repr

def RoundMode.all : List RoundMode :=
  [.NoneRound, .ToNearestMultipleOfFour, .ToNearestPowerOfTwo,
   .ToNextMultipleOfFour, .ToNextPowerOfTwo,
   .ToPreviousMultipleOfFour, .ToPreviousPowerOfTwo]

/-- `TextureType` (src/lib.rs lines 388–396). -/
inductive TextureType : Type
  | D2 | Cube | D3 | Array2
deriving DecidableEq, Repr

def TextureType.all : List TextureType := [.D2, .Cube, .D3, .Array2]

/-- `WrapMode` (src/lib.rs lines 405–412). -/
inductive WrapMode : Type
  | Clamp | Mirror | Repeat
deriving DecidableEq, Repr

def WrapMode.all : List WrapMode := [.Clamp, .Mirror, .Repeat]

/-- `Error` (src/lib.rs lines 1279–1298), declaration order of the
`decl_enum!` invocation. -/
inductive Error : Type
  | CudaError | FileOpen | FileWrite | InvalidInput
  | Unknown | UnsupportedFeature | UnsupportedOutputFormat
deriving DecidableEq, Repr

def Error.all : List Error :=
  [.CudaError, .FileOpen, .FileWrite, .InvalidInput,
   .Unknown, .UnsupportedFeature, .UnsupportedOutputFormat]

/-- Declaration-order (constructor, native value) arms of a bridged enum,
given the native value assignment `c`. -/
def declsOf {α : Type} (all : List α) (c : α → Int) : List (α × Int) :=
  all.map (fun x => (x, c x))

/-! ### Native error codes

`Compressor::compress` stores the raw `NvttError` fired by the error callback
in a thread-local `Cell<NvttError>` initialised to `0`, and on failure decodes
it with `Error::try_from(err).unwrap_or(Error::Unknown)`. -/

/-- Modelled from the spec: the numeric values bindgen assigns to the engine's
`NvttError` enumerants are produced at build time from the engine's C header
and are not under `src/`.  We model them as pairwise distinct codes, with the
generic unknown kind at the slot's initial value `0`, matching the spec's
fallback sentence (failure with no code recorded maps to the generic
"unknown" kind). -/
def nvttErrorCode : Error → Int
  | .Unknown => 0
  | .InvalidInput => 1
  | .UnsupportedFeature => 2
  | .CudaError => 3
  | .FileOpen => 4
  | .FileWrite => 5
  | .UnsupportedOutputFormat => 6

/-- The declaration-order arm list of `Error`'s `decl_enum!` invocation,
instantiated at the modelled native codes. -/
def Error.declList : List (Error × Int) := declsOf Error.all nvttErrorCode

/-- `Error::try_from(raw).unwrap_or(Error::Unknown)`, as used on the failure
path of `Compressor::compress` (src/lib.rs line 563). -/
def decodeErr (raw : Int) : Error :=
  (tryFromRaw Error.declList raw).getD Error.Unknown

/-! ### Path conversion and `OutputOptions` (src/lib.rs lines 1101–1277) -/

/-- `PathConvertError` (src/lib.rs lines 1324–1334).  The `Nul` variant wraps
`std::ffi::NulError`, which records the position of the first nul byte. -/
inductive PathConvertError : Type
  | Utf8Convert
  | AsciiConvert
  | Nul (pos : Nat)
deriving DecidableEq, Repr

/-- Whether a path-conversion error is the embedded-nul kind. -/
def PathConvertError.isNul : PathConvertError → Bool
  | .Nul _ => true
  | _ => false

/-- The platform family selected by `cfg_if!` in `to_c_filepath`. -/
inductive Platform : Type
  | unixFamily | windowsFamily
deriving DecidableEq, Repr

/-- A filesystem path as the byte string the OS hands to the program.  On the
unix family this is exactly `path.as_os_str().as_bytes()`.  On the windows
family the code first runs `path.to_str()`; we model that lossless-UTF-8 view
by a flag `utf8Valid` (whether `to_str` succeeds) alongside the UTF-8 bytes it
yields when it does. -/
structure PathBytes : Type where
  bytes : List Nat
  utf8Valid : Bool
deriving DecidableEq, Repr

/-- `to_c_filepath` (src/lib.rs lines 1181–1200): `CString::new` fails exactly
when the byte string contains a nul byte, reporting its first position; the
windows branch additionally rejects paths that are not valid UTF-8
(`Utf8Convert`) or not pure ASCII (`AsciiConvert`), in that order, before
attempting `CString::new`. -/
def to_c_filepath (plat : Platform) (p : PathBytes) :
    Except PathConvertError (List Nat) :=
  match plat with
  | .unixFamily =>
      if 0 ∈ p.bytes then .error (.Nul (p.bytes.indexOf 0)) else .ok p.bytes
  | .windowsFamily =>
      if !p.utf8Valid then .error .Utf8Convert
      else if !(p.bytes.all (· < 128)) then .error .AsciiConvert
      else if 0 ∈ p.bytes then .error (.Nul (p.bytes.indexOf 0))
      else .ok p.bytes

/-- `OutputLocation` (src/lib.rs lines 1261–1270). -/
inductive OutputLocation : Type
  | file (path : PathBytes)
  | buffer
deriving DecidableEq, Repr

/-- `OutputOptions` (src/lib.rs lines 1101–1106): a non-null native handle
(modelled as a nonzero `Nat`) plus the `write_to_file` flag. -/
structure OutputOptions : Type where
  out_opts : Nat
  write_to_file : Bool
deriving DecidableEq, Repr

/-- Result of `OutputOptions::set_output_location`: the returned value, the
options state after the call, and whether the native file-name setter
`nvttSetOutputOptionsFileName` was invoked during the call. -/
structure SetLocationResult : Type where
  result : Except PathConvertError Unit
  opts : OutputOptions
  nativeFileNameCalled : Bool
deriving Repr

/-- `OutputOptions::set_output_location` (src/lib.rs lines 1172–1218): for a
file destination, convert the path first and only on success call the native
file-name setter and set `write_to_file`; for the buffer destination just
clear `write_to_file`. -/
def set_output_location (plat : Platform) (o : OutputOptions)
    (loc : OutputLocation) : SetLocationResult :=
  match loc with
  | .file p =>
      match to_c_filepath plat p with
      | .error e => ⟨.error e, o, false⟩
      | .ok _ => ⟨.ok (), { o with write_to_file := true }, true⟩
  | .buffer => ⟨.ok (), { o with write_to_file := false }, false⟩

/-! ### Constructors (null-checked wrappers)

Each native `nvttCreateX` call returns a raw pointer, modelled as a `Nat`
with `0` for null; `NonNull::new` succeeds exactly on nonzero values. -/

/-- `Compressor::new` (src/lib.rs lines 442–445). -/
def Compressor.new (raw : Nat) : Except Error Nat :=
  if raw = 0 then .error .Unknown else .ok raw

/-- `CompressionOptions::new` (src/lib.rs lines 638–641). -/
def CompressionOptions.new (raw : Nat) : Except Error Nat :=
  if raw = 0 then .error .Unknown else .ok raw

/-- `InputOptions::new` (src/lib.rs lines 734–737). -/
def InputOptions.new (raw : Nat) : Except Error Nat :=
  if raw = 0 then .error .Unknown else .ok raw

/-- `OutputOptions::new` (src/lib.rs lines 1111–1118): wraps the non-null
handle with `write_to_file` initially `true`. -/
def OutputOptions.new (raw : Nat) : Except Error OutputOptions :=
  if raw = 0 then .error .Unknown else .ok ⟨raw, true⟩

/-! ### The output-streaming bridge (src/lib.rs lines 477–595)

`Compressor::compress` keeps seven `thread_local!` slots: the error code cell
(initially `0`), the output accumulator `Vec<u8>` (initially empty), and five
metadata cells (initially `0`).  Thread-local statics live for the whole
thread, so the slots persist across successive `compress` calls on a thread;
a `Session` value is that persistent state.  `usize` values are what the
`as`-casts from `c_int` produce. -/

/-- Interpret a `c_int` value through Rust's `as usize` cast (sign extension
then reinterpretation on a 64-bit target). -/
def usizeOfCInt (x : Int) : Nat := (x % (2 ^ 64)).toNat

/-- `usize::try_from` on a `c_int`: fails exactly on negative input. -/
def usizeTryFrom (x : Int) : Option Nat :=
  if 0 ≤ x then some x.toNat else none

/-- The thread-local session state of `Compressor::compress`:
`ERR`, `OUT_DATA` (with its heap capacity), `WIDTH`, `HEIGHT`, `DEPTH`,
`FACE`, `MIPLEVEL`. -/
structure Session : Type where
  errSlot : Int
  outData : List Nat
  outCap : Nat
  width : Nat
  height : Nat
  depth : Nat
  face : Nat
  miplevel : Nat
deriving DecidableEq, Repr

/-- The initial value of every thread-local slot. -/
def Session.start : Session := ⟨0, [], 0, 0, 0, 0, 0, 0⟩

/-- `err_callback` (src/lib.rs lines 494–500): record the native code in the
error slot (the logging call has no state effect). -/
def err_callback (s : Session) (err : Int) : Session :=
  { s with errSlot := err }

/-- `output_begin_callback` (src/lib.rs lines 502–520): `Vec::reserve` grows
the capacity to at least `len + size` in a single reservation (modelled by the
minimal guaranteed capacity), and the five metadata cells are overwritten.
The accumulator's contents are untouched. -/
def output_begin_callback (s : Session)
    (size width height depth face miplevel : Int) : Session :=
  { s with
    outCap := max s.outCap (s.outData.length + usizeOfCInt size),
    width := usizeOfCInt width,
    height := usizeOfCInt height,
    depth := usizeOfCInt depth,
    face := usizeOfCInt face,
    miplevel := usizeOfCInt miplevel }

/-- `output_callback` (src/lib.rs lines 522–534): if the `c_int` length does
not convert to `usize` (i.e. it is negative), log and return `false`; else
append the `len` bytes at the supplied pointer (`mem` models the bytes
readable there) and return `true`. -/
def output_callback (s : Session) (mem : List Nat) (len : Int) :
    Session × Bool :=
  match usizeTryFrom len with
  | none => (s, false)
  | some n => ({ s with outData := s.outData ++ mem.take n }, true)

/-- One callback invocation performed by the native engine during
`nvttCompress`.  The engine is external code, so a compress call's callback
traffic is an arbitrary list of these events. -/
inductive CbEvent : Type
  | err (code : Int)
  | beginImage (size width height depth face miplevel : Int)
  | chunk (mem : List Nat) (len : Int)
deriving DecidableEq, Repr

/-- Dispatch one event to the installed handlers: the error handler is always
installed; the begin/data handlers only when the destination is the in-memory
buffer (`outputInstalled`). -/
def runEvent (outputInstalled : Bool) (s : Session) (e : CbEvent) : Session :=
  match e with
  | .err code => err_callback s code
  | .beginImage size w h d f m =>
      if outputInstalled then output_begin_callback s size w h d f m else s
  | .chunk mem len =>
      if outputInstalled then (output_callback s mem len).1 else s

/-- `CompressionOutput` (src/lib.rs lines 609–629). -/
inductive CompressionOutput : Type
  | file
  | memory (data : List Nat) (width height depth face miplevel : Nat)
deriving DecidableEq, Repr

/-- Everything observable about one `Compressor::compress` call: the returned
value, the thread-local state after the call, and whether the output handlers
were installed for the call. -/
structure CompressResult : Type where
  result : Except Error CompressionOutput
  post : Session
  outputHandlersInstalled : Bool
deriving Repr

/-- `Compressor::compress` (src/lib.rs lines 477–578) for one call on one
thread: `pre` is the thread-local state left by earlier calls (or
`Session.start` on a fresh thread), `events` the callback traffic the native
engine generates during `nvttCompress`, and `retTrue` its returned status.
The wrapper clears `OUT_DATA` before the native call, installs the error
handler always and the output handlers only for a buffer destination, then
translates the outcome; on the in-memory success path `OUT_DATA.replace(vec![])`
hands the accumulated bytes to the caller and leaves a fresh empty vector. -/
def Compressor.compress (out : OutputOptions) (pre : Session)
    (events : List CbEvent) (retTrue : Bool) : CompressResult :=
  let installed := !out.write_to_file
  let s0 : Session := { pre with outData := [] }
  let s1 := events.foldl (runEvent installed) s0
  if retTrue then
    if installed then
      { result := .ok (.memory s1.outData s1.width s1.height s1.depth
          s1.face s1.miplevel),
        post := { s1 with outData := [], outCap := 0 },
        outputHandlersInstalled := true }
    else
      { result := .ok .file, post := s1, outputHandlersInstalled := false }
  else
    { result := .error (decodeErr s1.errSlot), post := s1,
      outputHandlersInstalled := installed }

/-- The code of the last error event in a callback trace, if any. -/
def lastErrCode : List CbEvent → Option Int
  | [] => none
  | .err c :: rest => some ((lastErrCode rest).getD c)
  | .beginImage _ _ _ _ _ _ :: rest => lastErrCode rest
  | .chunk _ _ :: rest => lastErrCode rest

/-- The arguments of the last begin-subresource event in a callback trace. -/
def lastBegin : List CbEvent → Option (Int × Int × Int × Int × Int)
  | [] => none
  | .beginImage _ w h d f m :: rest => some ((lastBegin rest).getD (w, h, d, f, m))
  | .err _ :: rest => lastBegin rest
  | .chunk _ _ :: rest => lastBegin rest

/-- The bytes the data-chunk handler appends over a callback trace, in order:
each nonnegative-length chunk contributes its `len` bytes. -/
def collectChunks : List CbEvent → List Nat
  | [] => []
  | .chunk mem len :: rest =>
      (if 0 ≤ len then mem.take len.toNat else []) ++ collectChunks rest
  | _ :: rest => collectChunks rest

/-- The in-memory output a successful buffer-destination call packages: the
flattened byte buffer and the metadata of the last begin event (falling back
to the metadata already in the thread-local cells). -/
def memoryOutputOf (pre : Session) (events : List CbEvent) : CompressionOutput :=
  match lastBegin events with
  | none => .memory (collectChunks events)
      pre.width pre.height pre.depth pre.face pre.miplevel
  | some (w, h, d, f, m) => .memory (collectChunks events)
      (usizeOfCInt w) (usizeOfCInt h) (usizeOfCInt d)
      (usizeOfCInt f) (usizeOfCInt m)

/-- The width/height/depth/face/miplevel cells after a compress call: no code
path of the call's epilogue writes them, so they hold what the last
begin-subresource callback recorded during the call — the previous contents
if none fired, and always the previous contents for a file destination, where
the output handlers are not installed. -/
def metaAfter (o : OutputOptions) (pre : Session) (events : List CbEvent) :
    Nat × Nat × Nat × Nat × Nat :=
  if o.write_to_file then
    (pre.width, pre.height, pre.depth, pre.face, pre.miplevel)
  else
    match lastBegin events with
    | none => (pre.width, pre.height, pre.depth, pre.face, pre.miplevel)
    | some (w, h, d, f, m) =>
        (usizeOfCInt w, usizeOfCInt h, usizeOfCInt d,
         usizeOfCInt f, usizeOfCInt m)

theorem tryFromRaw_mem {α : Type} {decls : List (α × Int)} {raw : Int} {a : α}
    (h : tryFromRaw decls raw = some a) : (a, raw) ∈ decls := by
  induction decls with
  | nil => simp [tryFromRaw] at h
  | cons p rest ih =>
    obtain ⟨b, v⟩ := p
    simp only [tryFromRaw] at h
    split at h
    · cases h
      subst_vars
      exact List.mem_cons_self _ _
    · exact List.mem_cons_of_mem _ (ih h)

theorem tryFromRaw_isSome {α : Type} {decls : List (α × Int)} {raw : Int} {a : α}
    (h : (a, raw) ∈ decls) : (tryFromRaw decls raw).isSome := by
  induction decls with
  | nil => simp at h
  | cons p rest ih =>
    obtain ⟨b, v⟩ := p
    simp only [tryFromRaw]
    split
    · simp
    · rcases List.mem_cons.mp h with h' | h'
      · cases h'
        simp_all
      · exact ih h'

theorem tryFromRaw_eq_specFirstDeclared {α : Type}
    (decls : List (α × Int)) (raw : Int) :
    tryFromRaw decls raw = specFirstDeclared decls raw := by
  induction decls with
  | nil => rfl
  | cons p rest ih =>
    obtain ⟨b, v⟩ := p
    by_cases hv : v = raw
    · simp [tryFromRaw, specFirstDeclared, List.find?, hv]
    · simp [tryFromRaw, specFirstDeclared, List.find?, hv]
      simpa [specFirstDeclared] using ih

theorem tryFromRaw_eq_none_iff {α : Type} (decls : List (α × Int)) (raw : Int) :
    tryFromRaw decls raw = none ↔ ∀ p ∈ decls, p.2 ≠ raw := by
  induction decls with
  | nil => simp [tryFromRaw]
  | cons p rest ih =>
    obtain ⟨b, v⟩ := p
    simp only [tryFromRaw]
    by_cases hv : v = raw
    · simp [hv]
    · simp [hv, ih]

/-- Declaration-order pair lists built from a constructor list and the native
value assignment: membership determines the native value of the pair. -/
theorem mem_map_pair {α : Type} {l : List α} {c : α → Int} {p : α × Int}
    (hp : p ∈ l.map (fun x => (x, c x))) : p.2 = c p.1 := by
  obtain ⟨x, _, rfl⟩ := List.mem_map.mp hp
  rfl

/-- Round-trip of `decl_enum`'s conversions: for a declared enumerant `e`,
`TryFrom` applied to `e`'s native value succeeds, and the enumerant it returns
has the same native value (first-declared-wins may pick a collided twin). -/
theorem declEnum_roundtrip {α : Type} (l : List α) (c : α → Int) (e : α)
    (he : e ∈ l) :
    (tryFromRaw (l.map (fun x => (x, c x))) (c e)).map c = some (c e) := by
  have hmem : (e, c e) ∈ l.map (fun x => (x, c x)) :=
    List.mem_map.mpr ⟨e, he, rfl⟩
  have hsome := tryFromRaw_isSome hmem
  obtain ⟨a, ha⟩ := Option.isSome_iff_exists.mp hsome
  have := mem_map_pair (tryFromRaw_mem ha)
  simp only [ha, Option.map_some]
  exact congrArg some this.symm

theorem mem_all_container : ∀ e : Container, e ∈ Container.all := by
  intro e; cases e <;> decide
theorem mem_all_alphaMode : ∀ e : AlphaMode, e ∈ AlphaMode.all := by
  intro e; cases e <;> decide
theorem mem_all_quality : ∀ e : Quality, e ∈ Quality.all := by
  intro e; cases e <;> decide
theorem mem_all_format : ∀ e : Format, e ∈ Format.all := by
  intro e; cases e <;> decide
theorem mem_all_inputFormat : ∀ e : InputFormat, e ∈ InputFormat.all := by
  intro e; cases e <;> decide
theorem mem_all_roundMode : ∀ e : RoundMode, e ∈ RoundMode.all := by
  intro e; cases e <;> decide
theorem mem_all_textureType : ∀ e : TextureType, e ∈ TextureType.all := by
  intro e; cases e <;> decide
theorem mem_all_wrapMode : ∀ e : WrapMode, e ∈ WrapMode.all := by
  intro e; cases e <;> decide
theorem mem_all_error : ∀ e : Error, e ∈ Error.all := by
  intro e; cases e <;> decide

theorem output_callback_eq (s : Session) (mem : List Nat) (len : Int) :
    output_callback s mem len =
      if 0 ≤ len then ({ s with outData := s.outData ++ mem.take len.toNat }, true)
      else (s, false) := by
  by_cases h : 0 ≤ len <;> simp [output_callback, usizeTryFrom, h]

theorem foldl_errSlot (installed : Bool) (events : List CbEvent) (s : Session) :
    (events.foldl (runEvent installed) s).errSlot
      = (lastErrCode events).getD s.errSlot := by
  induction events generalizing s with
  | nil => rfl
  | cons e rest ih =>
    cases e with
    | err c =>
      simp only [List.foldl_cons, lastErrCode, Option.getD_some]
      rw [ih]
      simp [runEvent, err_callback]
    | beginImage sz w h d f m =>
      simp only [List.foldl_cons, lastErrCode]
      rw [ih]
      cases installed <;> simp [runEvent, output_begin_callback]
    | chunk mem len =>
      simp only [List.foldl_cons, lastErrCode]
      rw [ih]
      cases installed
      · simp [runEvent, output_callback_eq]
      · by_cases h : 0 ≤ len <;> simp [runEvent, output_callback_eq, h]

theorem foldl_outData_true (events : List CbEvent) (s : Session) :
    (events.foldl (runEvent true) s).outData
      = s.outData ++ collectChunks events := by
  induction events generalizing s with
  | nil => simp [collectChunks]
  | cons e rest ih =>
    cases e with
    | err c =>
      simp only [List.foldl_cons, collectChunks]
      rw [ih]
      simp [runEvent, err_callback]
    | beginImage sz w h d f m =>
      simp only [List.foldl_cons, collectChunks]
      rw [ih]
      simp [runEvent, output_begin_callback]
    | chunk mem len =>
      simp only [List.foldl_cons, collectChunks]
      rw [ih]
      simp only [runEvent, if_true, output_callback_eq]
      by_cases h : 0 ≤ len <;> simp [h, List.append_assoc]

theorem foldl_meta_true (events : List CbEvent) (s : Session) :
    ((events.foldl (runEvent true) s).width,
     (events.foldl (runEvent true) s).height,
     (events.foldl (runEvent true) s).depth,
     (events.foldl (runEvent true) s).face,
     (events.foldl (runEvent true) s).miplevel)
      = match lastBegin events with
        | none => (s.width, s.height, s.depth, s.face, s.miplevel)
        | some (w, h, d, f, m) =>
            (usizeOfCInt w, usizeOfCInt h, usizeOfCInt d,
             usizeOfCInt f, usizeOfCInt m) := by
  induction events generalizing s with
  | nil => rfl
  | cons e rest ih =>
    cases e with
    | err c =>
      simpa [runEvent, err_callback, lastBegin] using ih (err_callback s c)
    | beginImage sz w h d f m =>
      have := ih (output_begin_callback s sz w h d f m)
      rcases hlb : lastBegin rest with _ | ⟨w', h', d', f', m'⟩ <;>
        simp [hlb, runEvent, output_begin_callback, lastBegin] at this ⊢ <;>
        simp [this]
    | chunk mem len =>
      have hpres : ((runEvent true s (.chunk mem len)).width,
          (runEvent true s (.chunk mem len)).height,
          (runEvent true s (.chunk mem len)).depth,
          (runEvent true s (.chunk mem len)).face,
          (runEvent true s (.chunk mem len)).miplevel)
          = (s.width, s.height, s.depth, s.face, s.miplevel) := by
        by_cases h : 0 ≤ len <;> simp [runEvent, output_callback_eq, h]
      have hind := ih (runEvent true s (.chunk mem len))
      rcases hlb : lastBegin rest with _ | ⟨w', h', d', f', m'⟩
      · simp only [hlb] at hind
        simp only [List.foldl_cons, lastBegin, hlb]
        rw [hind, hpres]
      · simp only [hlb] at hind
        simp only [List.foldl_cons, lastBegin, hlb]
        exact hind

theorem foldl_false (events : List CbEvent) (s : Session) :
    events.foldl (runEvent false) s
      = { s with errSlot := (lastErrCode events).getD s.errSlot } := by
  induction events generalizing s with
  | nil => rfl
  | cons e rest ih =>
    cases e with
    | err c =>
      simp only [List.foldl_cons, lastErrCode, Option.getD_some]
      rw [ih]
      rfl
    | beginImage sz w h d f m =>
      simp only [List.foldl_cons, lastErrCode]
      rw [show runEvent false s (.beginImage sz w h d f m) = s by simp [runEvent]]
      exact ih s
    | chunk mem len =>
      simp only [List.foldl_cons, lastErrCode]
      rw [show runEvent false s (.chunk mem len) = s by simp [runEvent]]
      exact ih s

/-! ### Claim theorems -/

/-- C5: the data-chunk output callback returns `false` exactly when the
supplied `c_int` length cannot be represented in `usize` (i.e. is negative);
whenever it returns `true` it appends exactly the supplied bytes to the
accumulator, after the previously appended bytes and in order. -/
theorem C5_output_callback_append_iff :
    ∀ (s : Session) (mem : List Nat) (len : Int),
      ((output_callback s mem len).2 = false ↔ len < 0)
      ∧ (0 ≤ len →
          (output_callback s mem len).1.outData
              = s.outData ++ mem.take len.toNat
          ∧ (output_callback s mem len).2 = true)
      ∧ (0 ≤ len → mem.length = len.toNat →
          (output_callback s mem len).1.outData = s.outData ++ mem) := by
  intro s mem len
  by_cases h : 0 ≤ len
  · refine ⟨by simp [output_callback_eq, h], fun _ => ⟨?_, ?_⟩, fun _ hl => ?_⟩
    · simp [output_callback_eq, h]
    · simp [output_callback_eq, h]
    · simp [output_callback_eq, h, ← hl]
  · refine ⟨by simp [output_callback_eq, h]; omega, fun h' => absurd h' h,
      fun h' => absurd h' h⟩

theorem C5_output_callback_append_iff_witness :
    0 ≤ (2 : Int)
    ∧ (output_callback Session.start [1, 2] 2).1.outData
        = Session.start.outData ++ ([1, 2] : List Nat).take (2 : Int).toNat
    ∧ (output_callback Session.start [1, 2] 2).2 = true :=
  ⟨by decide,
   ((C5_output_callback_append_iff Session.start [1, 2] 2).2.1 (by decide)).1,
   ((C5_output_callback_append_iff Session.start [1, 2] 2).2.1 (by decide)).2⟩

/-- C6: for every public enumerant `E` of each bridged enum and every native
value assignment `c` (the assignment bindgen produces being one of them),
converting `E` to its native value, back through `TryFrom`, and to a native
value again yields the original native value:
`to_native(from_native(native(E))) = native(E)`. -/
theorem C6_roundtrip_all_bridged_enums :
    (∀ (c : Container → Int) (e : Container),
      (tryFromRaw (declsOf Container.all c) (c e)).map c = some (c e))
    ∧ (∀ (c : AlphaMode → Int) (e : AlphaMode),
      (tryFromRaw (declsOf AlphaMode.all c) (c e)).map c = some (c e))
    ∧ (∀ (c : Quality → Int) (e : Quality),
      (tryFromRaw (declsOf Quality.all c) (c e)).map c = some (c e))
    ∧ (∀ (c : Format → Int) (e : Format),
      (tryFromRaw (declsOf Format.all c) (c e)).map c = some (c e))
    ∧ (∀ (c : InputFormat → Int) (e : InputFormat),
      (tryFromRaw (declsOf InputFormat.all c) (c e)).map c = some (c e))
    ∧ (∀ (c : RoundMode → Int) (e : RoundMode),
      (tryFromRaw (declsOf RoundMode.all c) (c e)).map c = some (c e))
    ∧ (∀ (c : TextureType → Int) (e : TextureType),
      (tryFromRaw (declsOf TextureType.all c) (c e)).map c = some (c e))
    ∧ (∀ (c : WrapMode → Int) (e : WrapMode),
      (tryFromRaw (declsOf WrapMode.all c) (c e)).map c = some (c e))
    ∧ (∀ (c : Error → Int) (e : Error),
      (tryFromRaw (declsOf Error.all c) (c e)).map c = some (c e)) :=
  ⟨fun c e => declEnum_roundtrip _ c e (mem_all_container e),
   fun c e => declEnum_roundtrip _ c e (mem_all_alphaMode e),
   fun c e => declEnum_roundtrip _ c e (mem_all_quality e),
   fun c e => declEnum_roundtrip _ c e (mem_all_format e),
   fun c e => declEnum_roundtrip _ c e (mem_all_inputFormat e),
   fun c e => declEnum_roundtrip _ c e (mem_all_roundMode e),
   fun c e => declEnum_roundtrip _ c e (mem_all_textureType e),
   fun c e => declEnum_roundtrip _ c e (mem_all_wrapMode e),
   fun c e => declEnum_roundtrip _ c e (mem_all_error e)⟩

/-- C7: `decl_enum`'s generated `TryFrom` returns the first-declared public
enumerant whose native value equals the raw input when one exists
(first-declared-wins on duplicate native values), and fails — never coercing
to a default — when no declared enumerant carries that native value
(instantiated at `Format`, the enum with overlapping native values). -/
theorem C7_tryFrom_first_declared_fail_closed :
    (∀ (α : Type) (decls : List (α × Int)) (raw : Int),
      tryFromRaw decls raw = specFirstDeclared decls raw)
    ∧ (∀ (α : Type) (decls : List (α × Int)) (raw : Int),
      tryFromRaw decls raw = none ↔ ∀ p ∈ decls, p.2 ≠ raw)
    ∧ (∀ (c : Format → Int) (raw : Int),
      tryFromRaw (declsOf Format.all c) raw = none ↔ ∀ e : Format, c e ≠ raw) := by
  refine ⟨fun α decls raw => tryFromRaw_eq_specFirstDeclared decls raw,
    fun α decls raw => tryFromRaw_eq_none_iff decls raw, fun c raw => ?_⟩
  rw [declsOf, tryFromRaw_eq_none_iff]
  constructor
  · intro hall e hc
    exact hall (e, c e) (List.mem_map.mpr ⟨e, mem_all_format e, rfl⟩) hc
  · intro hall p hp
    rw [mem_map_pair hp]
    exact hall p.1

/-- C9: each of the four constructors fails with `Error::Unknown` exactly when
the native create call returns a null handle, and otherwise wraps the non-null
handle (with `write_to_file` initially `true` for `OutputOptions`). -/
theorem C9_constructors_null_checked :
    ∀ raw : Nat,
      (Compressor.new raw = .error .Unknown ↔ raw = 0)
      ∧ (raw ≠ 0 → Compressor.new raw = .ok raw)
      ∧ (CompressionOptions.new raw = .error .Unknown ↔ raw = 0)
      ∧ (raw ≠ 0 → CompressionOptions.new raw = .ok raw)
      ∧ (InputOptions.new raw = .error .Unknown ↔ raw = 0)
      ∧ (raw ≠ 0 → InputOptions.new raw = .ok raw)
      ∧ (OutputOptions.new raw = .error .Unknown ↔ raw = 0)
      ∧ (raw ≠ 0 → OutputOptions.new raw = .ok ⟨raw, true⟩) := by
  intro raw
  by_cases h : raw = 0 <;>
    simp [Compressor.new, CompressionOptions.new, InputOptions.new,
      OutputOptions.new, h]

theorem C9_constructors_null_checked_witness :
    Compressor.new 0 = .error .Unknown
    ∧ Compressor.new 1 = .ok 1
    ∧ InputOptions.new 0 = .error .Unknown
    ∧ OutputOptions.new 1 = .ok ⟨1, true⟩ :=
  ⟨(C9_constructors_null_checked 0).1.mpr rfl,
   (C9_constructors_null_checked 1).2.1 (by decide),
   (C9_constructors_null_checked 0).2.2.2.2.1.mpr rfl,
   (C9_constructors_null_checked 1).2.2.2.2.2.2.2 (by decide)⟩

/-- C10: a fresh `OutputOptions` defaults to the file destination
(`write_to_file = true`, also restored by a successful file
`set_output_location`), and a compress call with such options installs no
output handlers and, on native success, returns `CompressionOutput::File`. -/
theorem C10_default_output_is_file :
    (∀ raw : Nat, raw ≠ 0 → OutputOptions.new raw = .ok ⟨raw, true⟩)
    ∧ (∀ (plat : Platform) (o : OutputOptions) (p : PathBytes),
        (set_output_location plat o (.file p)).result = .ok () →
        (set_output_location plat o (.file p)).opts.write_to_file = true)
    ∧ (∀ (o : OutputOptions) (pre : Session) (events : List CbEvent),
        o.write_to_file = true →
        (Compressor.compress o pre events true).result = .ok .file
        ∧ (Compressor.compress o pre events true).outputHandlersInstalled
            = false) := by
  refine ⟨fun raw h => by simp [OutputOptions.new, h], ?_, ?_⟩
  · intro plat o p hr
    rcases hc : to_c_filepath plat p with e | s <;>
      simp [set_output_location, hc] at hr ⊢
  · intro o pre events h
    constructor <;> simp [Compressor.compress, h]

theorem C10_default_output_is_file_witness :
    OutputOptions.new 1 = .ok ⟨1, true⟩
    ∧ (Compressor.compress ⟨1, true⟩ Session.start [] true).result = .ok .file :=
  ⟨C10_default_output_is_file.1 1 (by decide),
   (C10_default_output_is_file.2.2 ⟨1, true⟩ Session.start [] rfl).1⟩

/-- C1 (counterexample): the thread-local error slot is never reset after a
call, so a second failing call on the same thread with no error callback
returns the stale kind recorded by the first call, not `Error::Unknown`. -/
theorem C1_counterexample_stale_error_slot :
    lastErrCode ([] : List CbEvent) = none
    ∧ (Compressor.compress ⟨1, true⟩
        (Compressor.compress ⟨1, true⟩ Session.start
          [.err (nvttErrorCode .CudaError)] false).post
        [] false).result = .error .CudaError
    ∧ Error.CudaError ≠ Error.Unknown :=
  ⟨rfl, rfl, by decide⟩

/-- C1 (amended): a failing compress call returns the translation of the
error slot as left by the callback traffic of the call — the last code fired
during the call, or, if none fired, the code still recorded from earlier
calls on the thread (`0` on a fresh thread, which translates to
`Error::Unknown`). -/
theorem C1_amended_failure_error_translation :
    ∀ (o : OutputOptions) (pre : Session) (events : List CbEvent),
      (Compressor.compress o pre events false).result
          = .error (decodeErr ((lastErrCode events).getD pre.errSlot))
      ∧ (∀ (X : Int) (k : Error), lastErrCode events = some X →
          tryFromRaw Error.declList X = some k →
          (Compressor.compress o pre events false).result = .error k)
      ∧ (lastErrCode events = none → pre.errSlot = 0 →
          (Compressor.compress o pre events false).result
            = .error .Unknown) := by
  intro o pre events
  have hmain : (Compressor.compress o pre events false).result
      = .error (decodeErr ((lastErrCode events).getD pre.errSlot)) := by
    simp only [Compressor.compress, Bool.false_eq_true, if_false]
    rw [foldl_errSlot]
  refine ⟨hmain, ?_, ?_⟩
  · intro X k hX hk
    rw [hmain, hX]
    simp [decodeErr, hk]
  · intro hN h0
    rw [hmain, hN, h0]
    rfl

theorem C1_amended_failure_error_translation_witness :
    (Compressor.compress ⟨1, true⟩ Session.start [] false).result
      = .error .Unknown :=
  (C1_amended_failure_error_translation ⟨1, true⟩ Session.start []).2.2 rfl rfl

/-- C2 (counterexample): the accumulator is not cleared between subresources,
so the returned buffer spans ALL subresources of the call, not only the last
one (first call: two subresources of 4 bytes each return 8 bytes, not 4); and
for a single subresource the length is whatever the engine pushed, not the
begin hint (second call: hint 8, pushed 2, returned 2). -/
theorem C2_counterexample_buffer_not_last_subresource_only :
    (Compressor.compress ⟨1, false⟩ Session.start
        [.beginImage 4 2 2 1 0 0, .chunk [1, 2, 3, 4] 4,
         .beginImage 4 1 1 1 0 1, .chunk [5, 6, 7, 8] 4] true).result
      = .ok (.memory [1, 2, 3, 4, 5, 6, 7, 8] 1 1 1 0 1)
    ∧ ([1, 2, 3, 4, 5, 6, 7, 8] : List Nat).length = 8
    ∧ (8 : Nat) ≠ 4
    ∧ (Compressor.compress ⟨1, false⟩ Session.start
        [.beginImage 8 2 2 1 0 0, .chunk [9, 9] 2] true).result
      = .ok (.memory [9, 9] 2 2 1 0 0)
    ∧ ([9, 9] : List Nat).length = 2
    ∧ (2 : Nat) ≠ 8 :=
  ⟨rfl, rfl, by decide, rfl, rfl, by decide⟩

/-- C2 (amended): a successful in-memory compress call returns the
concatenation of every byte appended by the data-chunk callback across ALL
subresources of the call, together with the metadata recorded by the last
begin-subresource callback (the cells' previous contents if none fired);
in particular the buffer length is the total number of bytes the engine
pushed, and width/height are the last begin event's dimensions (2/2 for a
2×2 single-subresource compression whose pushes total the hint — see the
witness). -/
theorem C2_amended_memory_output :
    ∀ (o : OutputOptions) (pre : Session) (events : List CbEvent),
      o.write_to_file = false →
      (Compressor.compress o pre events true).result
        = .ok (memoryOutputOf pre events) := by
  intro o pre events h
  have hd := foldl_outData_true events { pre with outData := [] }
  have hm := foldl_meta_true events { pre with outData := [] }
  simp only [Compressor.compress, h, Bool.not_false, if_true]
  rcases hlb : lastBegin events with _ | ⟨w, h', d, f, m⟩ <;>
    rw [hlb] at hm <;>
    simp only [Prod.mk.injEq] at hm <;>
    obtain ⟨h1, h2, h3, h4, h5⟩ := hm <;>
    simp [memoryOutputOf, hlb, hd, h1, h2, h3, h4, h5]

theorem C2_amended_memory_output_witness :
    OutputOptions.write_to_file ⟨1, false⟩ = false
    ∧ (Compressor.compress ⟨1, false⟩ Session.start
        [.beginImage 8 2 2 1 0 0, .chunk [1, 2, 3, 4, 5, 6, 7, 8] 8]
        true).result
      = .ok (.memory [1, 2, 3, 4, 5, 6, 7, 8] 2 2 1 0 0)
    ∧ ([1, 2, 3, 4, 5, 6, 7, 8] : List Nat).length = 8 := by
  refine ⟨rfl, ?_, rfl⟩
  have h := C2_amended_memory_output ⟨1, false⟩ Session.start
    [.beginImage 8 2 2 1 0 0, .chunk [1, 2, 3, 4, 5, 6, 7, 8] 8] rfl
  rw [h]
  rfl

/-- C3 (counterexample): the begin-subresource callback does NOT clear the
accumulator's previous content — a begin invocation on a session holding one
byte leaves that byte in place. -/
theorem C3_counterexample_begin_does_not_clear :
    (output_begin_callback ⟨0, [7], 0, 0, 0, 0, 0, 0⟩ 4 2 2 1 0 1).outData
      = [7]
    ∧ ([7] : List Nat) ≠ [] :=
  ⟨rfl, by decide⟩

/-- C3 (amended): each begin-subresource invocation performs one capacity
reservation bringing the accumulator's capacity to at least the current
length plus the size hint, records the supplied width/height/depth/face/mip
metadata, and leaves the previously accumulated bytes in place — the
accumulator is cleared once per compress call, before the native call, not
per subresource. -/
theorem C3_amended_begin_reserves_and_records :
    ∀ (s : Session) (size w h d f m : Int),
      (output_begin_callback s size w h d f m).outCap
          = max s.outCap (s.outData.length + usizeOfCInt size)
      ∧ s.outData.length + usizeOfCInt size
          ≤ (output_begin_callback s size w h d f m).outCap
      ∧ (output_begin_callback s size w h d f m).width = usizeOfCInt w
      ∧ (output_begin_callback s size w h d f m).height = usizeOfCInt h
      ∧ (output_begin_callback s size w h d f m).depth = usizeOfCInt d
      ∧ (output_begin_callback s size w h d f m).face = usizeOfCInt f
      ∧ (output_begin_callback s size w h d f m).miplevel = usizeOfCInt m
      ∧ (output_begin_callback s size w h d f m).outData = s.outData
      ∧ ∀ (o : OutputOptions) (pre : Session) (events : List CbEvent)
          (r : Bool),
          Compressor.compress o pre events r
            = Compressor.compress o { pre with outData := [] } events r :=
  fun _s _size _w _h _d _f _m =>
    ⟨rfl, le_max_right _ _, rfl, rfl, rfl, rfl, rfl, rfl,
     fun _o _pre _events _r => rfl⟩

/-- C4 (counterexample): after a failing call during which the error callback
fired, the thread-local state is NOT back to its initial zero state — the
error slot keeps the recorded code; likewise, a successful in-memory call
leaves the metadata cells populated. -/
theorem C4_counterexample_state_not_cleared :
    (Compressor.compress ⟨1, true⟩ Session.start
        [.err (nvttErrorCode .CudaError)] false).post ≠ Session.start
    ∧ (Compressor.compress ⟨1, false⟩ Session.start
        [.beginImage 4 2 2 1 0 0] true).post ≠ Session.start := by
  constructor <;> decide

/-- C4 (amended): the accumulator is cleared immediately BEFORE each call
(the pre-call contents are unobservable); after the call, only the
success-with-memory path consumes the accumulator (leaving it empty with
capacity zero); the error slot persists after EVERY call as the last code
fired during the call (or its previous value), the five metadata cells
persist after EVERY call as recorded by the call's last begin callback (or
their previous values), on the failure path the accumulated bytes persist
until the next call clears them, and on the file-success path the whole state
persists unchanged apart from the pre-call clear and the error slot. -/
theorem C4_amended_state_lifecycle :
    ∀ (o : OutputOptions) (pre : Session) (events : List CbEvent) (r : Bool),
      Compressor.compress o pre events r
          = Compressor.compress o { pre with outData := [] } events r
      ∧ (Compressor.compress o pre events r).post.errSlot
          = (lastErrCode events).getD pre.errSlot
      ∧ ((Compressor.compress o pre events r).post.width,
         (Compressor.compress o pre events r).post.height,
         (Compressor.compress o pre events r).post.depth,
         (Compressor.compress o pre events r).post.face,
         (Compressor.compress o pre events r).post.miplevel)
          = metaAfter o pre events
      ∧ (o.write_to_file = false → r = true →
          (Compressor.compress o pre events r).post.outData = []
          ∧ (Compressor.compress o pre events r).post.outCap = 0)
      ∧ (r = false →
          (Compressor.compress o pre events r).post.outData
            = if o.write_to_file then [] else collectChunks events)
      ∧ (o.write_to_file = true → r = true →
          (Compressor.compress o pre events r).post
            = { pre with
                outData := []
                errSlot := (lastErrCode events).getD pre.errSlot }) := by
  intro o pre events r
  refine ⟨rfl, ?_, ?_, ?_, ?_, ?_⟩
  · cases r <;> cases hw : o.write_to_file <;>
      simp [Compressor.compress, hw, foldl_errSlot]
  · cases hw : o.write_to_file
    · cases r <;>
        simpa [Compressor.compress, hw, metaAfter] using
          foldl_meta_true events { pre with outData := [] }
    · cases r <;> simp [Compressor.compress, hw, metaAfter, foldl_false]
  · intro hw hr
    subst hr
    constructor <;> simp [Compressor.compress, hw]
  · intro hr
    subst hr
    cases hw : o.write_to_file
    · simp [Compressor.compress, hw, foldl_outData_true]
    · simp [Compressor.compress, hw, foldl_false]
  · intro hw hr
    subst hr
    simp [Compressor.compress, hw, foldl_false]

theorem C4_amended_state_lifecycle_witness :
    (Compressor.compress ⟨1, false⟩ Session.start
        [.beginImage 4 2 2 1 0 0, .chunk [1, 2] 2] true).post.outData = []
    ∧ (Compressor.compress ⟨1, false⟩ Session.start
        [.beginImage 4 2 2 1 0 0, .chunk [1, 2] 2] false).post.outData
        = collectChunks [.beginImage 4 2 2 1 0 0, .chunk [1, 2] 2]
    ∧ (Compressor.compress ⟨1, true⟩ Session.start
        [.err (nvttErrorCode .CudaError)] true).post
        = { Session.start with
            outData := []
            errSlot := (lastErrCode
              [CbEvent.err (nvttErrorCode .CudaError)]).getD
                Session.start.errSlot } := by
  refine ⟨?_, ?_, ?_⟩
  · exact ((C4_amended_state_lifecycle ⟨1, false⟩ Session.start
      [.beginImage 4 2 2 1 0 0, .chunk [1, 2] 2] true).2.2.2.1 rfl rfl).1
  · have h := (C4_amended_state_lifecycle ⟨1, false⟩ Session.start
      [.beginImage 4 2 2 1 0 0, .chunk [1, 2] 2] false).2.2.2.2.1 rfl
    simpa using h
  · exact (C4_amended_state_lifecycle ⟨1, true⟩ Session.start
      [.err (nvttErrorCode .CudaError)] true).2.2.2.2.2 rfl rfl

/-- C8 (counterexample): on the windows family a path that is valid UTF-8 but
not ASCII fails with `AsciiConvert` even when it also contains a nul byte —
the embedded-nul error is not returned for every nul-containing path. -/
theorem C8_counterexample_windows_ascii_precedes_nul :
    (set_output_location .windowsFamily ⟨1, true⟩
        (.file ⟨[195, 169, 0], true⟩)).result = .error .AsciiConvert
    ∧ (0 : Nat) ∈ ([195, 169, 0] : List Nat)
    ∧ PathConvertError.AsciiConvert.isNul = false :=
  ⟨rfl, by decide, rfl⟩

/-- C8 (amended): on the unix family every output path containing a nul byte
fails with the embedded-nul error, and on the windows family every
nul-containing path that passes the earlier lossless-UTF-8 and ASCII checks
does too; every path-conversion failure (`Utf8Convert`, `AsciiConvert`,
`Nul`) is returned with the native file-name setter not invoked. -/
theorem C8_amended_path_errors_before_native_call :
    (∀ (o : OutputOptions) (p : PathBytes), 0 ∈ p.bytes →
        set_output_location .unixFamily o (.file p)
          = ⟨.error (.Nul (p.bytes.indexOf 0)), o, false⟩)
    ∧ (∀ (o : OutputOptions) (p : PathBytes), p.utf8Valid = true →
        p.bytes.all (· < 128) = true → 0 ∈ p.bytes →
        set_output_location .windowsFamily o (.file p)
          = ⟨.error (.Nul (p.bytes.indexOf 0)), o, false⟩)
    ∧ (∀ (plat : Platform) (o : OutputOptions) (p : PathBytes)
        (e : PathConvertError),
        to_c_filepath plat p = .error e →
        set_output_location plat o (.file p) = ⟨.error e, o, false⟩)
    ∧ (∀ (plat : Platform) (o : OutputOptions) (loc : OutputLocation)
        (e : PathConvertError),
        (set_output_location plat o loc).result = .error e →
        (set_output_location plat o loc).nativeFileNameCalled = false) := by
  refine ⟨?_, ?_, ?_, ?_⟩
  · intro o p hnul
    simp [set_output_location, to_c_filepath, hnul]
  · intro o p hu ha hnul
    simp [set_output_location, to_c_filepath, hu, ha, hnul]
  · intro plat o p e hc
    simp [set_output_location, hc]
  · intro plat o loc e hr
    cases loc with
    | file p =>
      rcases hc : to_c_filepath plat p with e' | s <;>
        simp [set_output_location, hc] at hr ⊢
    | buffer => simp [set_output_location] at hr

theorem C8_amended_path_errors_before_native_call_witness :
    (0 : Nat) ∈ ([65, 0, 66] : List Nat)
    ∧ set_output_location .unixFamily ⟨1, true⟩ (.file ⟨[65, 0, 66], true⟩)
        = ⟨.error (.Nul (([65, 0, 66] : List Nat).indexOf 0)), ⟨1, true⟩, false⟩
    ∧ ([65, 0, 66] : List Nat).indexOf 0 = 1 :=
  ⟨by decide,
   C8_amended_path_errors_before_native_call.1 ⟨1, true⟩ ⟨[65, 0, 66], true⟩
     (by decide),
   rfl⟩
